import Mathlib

/-!
# Verification of `fumadocs-mermaid`

A shallow embedding, in Lean 4, of the logic of the `fumadocs-mermaid`
package:

* the attribute parser and block rewriter of
  `packages/fumadocs-mermaid/src/remark-mdx-mermaid.ts`
  (`parseCodeBlockAttributes`, `toMDX`, `remarkMdxMermaid`), and
* the config resolution and render cache of `src/ui/mermaid.tsx`
  (`buildMermaidConfig`, `cachePromise`, `MermaidContent`).

JavaScript runtime values reachable by this code (JSON.parse results,
attribute bags, the built Mermaid config) are modelled by the inductive
type `JsVal`; JS objects are association lists in insertion order with
unique keys, maintained by `objSet`.  Exceptions are modelled by
`Except Unit`.  Promises are modelled by numeric identifiers allocated
by the cache model, so "the same promise object" is "the same id".
-/

namespace FumadocsMermaid

set_option autoImplicit false

/-- A JavaScript value as it can appear in this code: the JSON data
produced by `JSON.parse` (with numbers kept as a decimal mantissa `m`
and exponent `e`, denoting `m * 10 ^ e`; all example inputs use
integers, where `e = 0`), together with `nan`, the not-a-number result
that `parseInt` can produce.  Objects are association lists in
insertion order; keys are kept unique by `objSet`. -/
inductive JsVal where
  | null : JsVal
  | bool (b : Bool) : JsVal
  | num (m : Int) (e : Int) : JsVal
  | nan : JsVal
  | str (s : String) : JsVal
  | arr (elems : List JsVal) : JsVal
  | obj (fields : List (String × JsVal)) : JsVal
deriving Repr, BEq

/-- Property lookup on an association-list object: the value stored
under `key`, if any.  Keys are unique by construction, so the first
match is the only one. -/
def objGet (fields : List (String × JsVal)) (key : String) : Option JsVal :=
  match fields with
  | [] => none
  | (k, v) :: tl => if k = key then some v else objGet tl key

/-- JS property assignment `o[key] = v` on an association-list object:
overwrite in place if the key exists (keeping its position, as JS
objects do), else append. -/
def objSet (fields : List (String × JsVal)) (key : String) (v : JsVal) :
    List (String × JsVal) :=
  match fields with
  | [] => [(key, v)]
  | (k, w) :: tl => if k = key then (k, v) :: tl else (k, w) :: objSet tl key v

/-- JS truthiness of a `JsVal`: `null`, `false`, `0`, `NaN` and the
empty string are falsy; every object and array is truthy. -/
def JsVal.truthy : JsVal → Bool
  | .null => false
  | .bool b => b
  | .num m _ => m != 0
  | .nan => false
  | .str s => s ≠ ""
  | .arr _ => true
  | .obj _ => true

/-- Truthiness of an optional JS value, where `none` models
`undefined` (falsy). -/
def optTruthy : Option JsVal → Bool
  | none => false
  | some v => v.truthy

/-- Truthiness of an optional JS string (`undefined` and `""` are
falsy), as tested by `if (!configStr)` and `themeOverride ? ... : ...`. -/
def strOptTruthy : Option String → Bool
  | none => false
  | some s => s ≠ ""

/-- JS property access `v[key]` for the non-throwing cases: object
lookup; `undefined` (`none`) on every non-object primitive and on
arrays (no `config` / `theme` / option-name key is an array index or
string index).  Access on `null` throws and is handled separately at
its single call site in `buildMermaidConfig`. -/
def propGet (v : JsVal) (key : String) : Option JsVal :=
  match v with
  | .obj fields => objGet fields key
  | _ => none

/-! ## JSON parsing (`JSON.parse`)

A parser for the JSON grammar (RFC 8259), which is exactly what
`JSON.parse` accepts: a single value surrounded by optional whitespace
(space, tab, line feed, carriage return), with strict number syntax
(no leading zeros, no bare `.5`, at least one digit after `.` and in
an exponent) and the standard string escapes.  One divergence is
documented at `parseStrBody`: `\uXXXX` escapes denoting unpaired
surrogates, which JS accepts into its UTF-16 strings, are rejected,
since Lean strings hold Unicode scalar values only; no input in this
development contains a `\u` escape. -/

/-- JSON insignificant whitespace. -/
def jsonWs (c : Char) : Bool :=
  c = ' ' || c = '\t' || c = '\n' || c = '\r'

/-- Numeric value of a hexadecimal digit. -/
def hexVal (c : Char) : Option Nat :=
  if '0' ≤ c ∧ c ≤ '9' then some (c.toNat - 48)
  else if 'a' ≤ c ∧ c ≤ 'f' then some (c.toNat - 87)
  else if 'A' ≤ c ∧ c ≤ 'F' then some (c.toNat - 55)
  else none

/-- Body of a JSON string after the opening quote: the decoded
characters and the input remaining after the closing quote.  Control
characters below `0x20` must be escaped; `\uXXXX` escapes are decoded
when they denote a Unicode scalar value and rejected when they denote
an unpaired surrogate (see the section comment). -/
def parseStrBody : List Char → Option (List Char × List Char)
  | [] => none
  | c :: cs =>
    if c = '"' then some ([], cs)
    else if c = '\\' then
      match cs with
      | 'u' :: h1 :: h2 :: h3 :: h4 :: cs2 =>
        match hexVal h1, hexVal h2, hexVal h3, hexVal h4 with
        | some a, some b, some d, some e =>
          let code := ((a * 16 + b) * 16 + d) * 16 + e
          if code < 0xd800 ∨ (0xe000 ≤ code ∧ code < 0x110000) then
            (parseStrBody cs2).map fun p => (Char.ofNat code :: p.1, p.2)
          else none
        | _, _, _, _ => none
      | e :: cs2 =>
        let dec : Option Char :=
          if e = '"' then some '"'
          else if e = '\\' then some '\\'
          else if e = '/' then some '/'
          else if e = 'b' then some '\x08'
          else if e = 'f' then some '\x0c'
          else if e = 'n' then some '\n'
          else if e = 'r' then some '\r'
          else if e = 't' then some '\t'
          else none
        match dec with
        | some d => (parseStrBody cs2).map fun p => (d :: p.1, p.2)
        | none => none
      | [] => none
    else if c.toNat < 0x20 then none
    else (parseStrBody cs).map fun p => (c :: p.1, p.2)

/-- Value of a digit string, most significant first. -/
def digitsVal (ds : List Char) : Nat :=
  ds.foldl (fun a c => a * 10 + (c.toNat - 48)) 0

/-- Assemble a parsed JSON number from its sign, integer digits,
fraction digits and exponent: mantissa `±(ids ++ fds)` read in base
10, exponent `exp - |fds|`. -/
def mkNum (neg : Bool) (ids fds : List Char) (exp : Int) : JsVal :=
  let mAbs : Nat := digitsVal (ids ++ fds)
  let m : Int := if neg then -(mAbs : Int) else (mAbs : Int)
  .num m (exp - fds.length)

/-- Exponent tail of a JSON number, after `e`/`E`: optional sign, then
at least one digit. -/
def parseExpTail (neg : Bool) (ids fds : List Char) (cs : List Char) :
    Option (JsVal × List Char) :=
  let (eneg, cs1) : Bool × List Char :=
    match cs with
    | '+' :: r => (false, r)
    | '-' :: r => (true, r)
    | _ => (false, cs)
  let (eds, r) := cs1.span Char.isDigit
  if eds = [] then none
  else
    let ev : Int := digitsVal eds
    some (mkNum neg ids fds (if eneg then -ev else ev), r)

/-- Optional exponent part of a JSON number. -/
def parseExp (neg : Bool) (ids fds : List Char) (cs : List Char) :
    Option (JsVal × List Char) :=
  match cs with
  | 'e' :: r => parseExpTail neg ids fds r
  | 'E' :: r => parseExpTail neg ids fds r
  | _ => some (mkNum neg ids fds 0, cs)

/-- A JSON number: optional minus, integer part (`0` alone, or digits
without a leading zero — a digit following a leading `0` is left in
the remaining input, which the caller then rejects as trailing
garbage, as `JSON.parse` does), optional fraction, optional
exponent. -/
def parseNum (cs : List Char) : Option (JsVal × List Char) :=
  let (neg, cs1) : Bool × List Char :=
    match cs with
    | '-' :: r => (true, r)
    | _ => (false, cs)
  match cs1 with
  | [] => none
  | c :: _ =>
    if c.isDigit then
      let (ids, r1) : List Char × List Char :=
        match cs1 with
        | '0' :: r => (['0'], r)
        | _ => cs1.span Char.isDigit
      match r1 with
      | '.' :: r =>
        let (fds, r2) := r.span Char.isDigit
        if fds = [] then none else parseExp neg ids fds r2
      | _ => parseExp neg ids [] r1
    else none

mutual

/-- A JSON value, preceded by optional whitespace.  The fuel argument
bounds recursion depth; `jsonParse` supplies more fuel than any input
can consume. -/
def parseV : Nat → List Char → Option (JsVal × List Char)
  | 0, _ => none
  | fuel + 1, cs =>
    let cs := cs.dropWhile jsonWs
    match cs with
    | '\x7b' :: rest =>
      let rest := rest.dropWhile jsonWs
      match rest with
      | '\x7d' :: r => some (.obj [], r)
      | _ => parseMembers fuel rest []
    | '[' :: rest =>
      let rest := rest.dropWhile jsonWs
      match rest with
      | ']' :: r => some (.arr [], r)
      | _ => parseItems fuel rest []
    | '"' :: rest => (parseStrBody rest).map fun p => (.str (String.mk p.1), p.2)
    | 't' :: 'r' :: 'u' :: 'e' :: r => some (.bool true, r)
    | 'f' :: 'a' :: 'l' :: 's' :: 'e' :: r => some (.bool false, r)
    | 'n' :: 'u' :: 'l' :: 'l' :: r => some (.null, r)
    | rest => parseNum rest

/-- The members of a JSON object, starting at the first key
(whitespace already skipped) and ending at the closing brace.
Duplicate keys overwrite in place via `objSet`, as in JS. -/
def parseMembers : Nat → List Char → List (String × JsVal) →
    Option (JsVal × List Char)
  | 0, _, _ => none
  | fuel + 1, cs, fields =>
    match cs with
    | '"' :: rest =>
      match parseStrBody rest with
      | none => none
      | some (key, r1) =>
        match r1.dropWhile jsonWs with
        | ':' :: r2 =>
          match parseV fuel r2 with
          | none => none
          | some (v, r3) =>
            let fields := objSet fields (String.mk key) v
            match r3.dropWhile jsonWs with
            | ',' :: r4 => parseMembers fuel (r4.dropWhile jsonWs) fields
            | '\x7d' :: r4 => some (.obj fields, r4)
            | _ => none
        | _ => none
    | _ => none

/-- The items of a JSON array, starting at the first element and
ending at the closing bracket. -/
def parseItems : Nat → List Char → List JsVal → Option (JsVal × List Char)
  | 0, _, _ => none
  | fuel + 1, cs, elems =>
    match parseV fuel cs with
    | none => none
    | some (v, r1) =>
      match r1.dropWhile jsonWs with
      | ',' :: r2 => parseItems fuel r2 (elems ++ [v])
      | ']' :: r2 => some (.arr (elems ++ [v]), r2)
      | _ => none

end

/-- `JSON.parse`: a single JSON value with optional surrounding
whitespace; `none` models a thrown `SyntaxError`. -/
def jsonParse (s : String) : Option JsVal :=
  match parseV (s.length + 1) s.data with
  | some (v, rest) => if rest.dropWhile jsonWs = [] then some v else none
  | none => none

/-! ## JS string conversions -/

/-- The decimal rendering of a `JsVal.num m e` (value `m * 10 ^ e`),
modelling JS number-to-string conversion: exact for every integer
value (`e ≥ 0`, or the trailing digits of `m` covering `e`), and
decimal-point insertion for fractional values.  Every number reaching
a string conversion in this development is an integer with `e = 0`. -/
def jsNumToString (m e : Int) : String :=
  let sign := if m < 0 then "-" else ""
  let ds := toString m.natAbs
  if e ≥ 0 then
    sign ++ ds ++ String.mk (List.replicate e.toNat '0')
  else
    let k := (-e).toNat
    if ds.length > k then
      sign ++ String.mk (ds.data.take (ds.length - k)) ++ "." ++
        String.mk (ds.data.drop (ds.length - k))
    else
      sign ++ "0." ++ String.mk (List.replicate (k - ds.length) '0') ++ ds

/-- Hexadecimal digit (lowercase), for string escapes. -/
def hexDigit (n : Nat) : Char :=
  if n < 10 then Char.ofNat (48 + n) else Char.ofNat (87 + n)

/-- The escape `JSON.stringify` uses for one character inside a string
literal: `\"`, `\\`, the named control escapes, `\u00XX` for the
remaining control characters, and the character itself otherwise. -/
def escStrChar (c : Char) : String :=
  if c = '"' then "\\\""
  else if c = '\\' then "\\\\"
  else if c = '\x08' then "\\b"
  else if c = '\x0c' then "\\f"
  else if c = '\n' then "\\n"
  else if c = '\r' then "\\r"
  else if c = '\t' then "\\t"
  else if c.toNat < 0x20 then
    String.mk ['\\', 'u', '0', '0', hexDigit (c.toNat / 16), hexDigit (c.toNat % 16)]
  else String.singleton c

/-- A JSON string literal for `s`, as `JSON.stringify` prints it. -/
def strLit (s : String) : String :=
  "\"" ++ String.join (s.data.map escStrChar) ++ "\""

mutual

/-- `JSON.stringify` on a `JsVal`: compact output, object fields in
insertion order, `NaN` serialized as `null`. -/
def stringifyV : JsVal → String
  | .null => "null"
  | .nan => "null"
  | .bool b => if b then "true" else "false"
  | .num m e => jsNumToString m e
  | .str s => strLit s
  | .arr xs => "[" ++ stringifyItems xs ++ "]"
  | .obj fs => "\x7b" ++ stringifyFields fs ++ "\x7d"

/-- Comma-separated serializations of array items. -/
def stringifyItems : List JsVal → String
  | [] => ""
  | [x] => stringifyV x
  | x :: y :: xs => stringifyV x ++ "," ++ stringifyItems (y :: xs)

/-- Comma-separated `"key":value` serializations of object fields. -/
def stringifyFields : List (String × JsVal) → String
  | [] => ""
  | [(k, v)] => strLit k ++ ":" ++ stringifyV v
  | (k, v) :: f :: fs => strLit k ++ ":" ++ stringifyV v ++ "," ++ stringifyFields (f :: fs)

end

mutual

/-- JS `String(v)` coercion: `"null"`, `"true"`/`"false"`, `"NaN"`,
decimal numbers, strings unchanged, arrays joined with `","` (with
`null` elements becoming the empty string), and `"[object Object]"`
for plain objects. -/
def jsToString : JsVal → String
  | .null => "null"
  | .nan => "NaN"
  | .bool b => if b then "true" else "false"
  | .num m e => jsNumToString m e
  | .str s => s
  | .arr xs => jsArrJoin xs
  | .obj _ => "[object Object]"

/-- `Array.prototype.toString`: elements coerced with `String(·)`,
except `null` (and `undefined`) which contribute `""`, joined by `,`. -/
def jsArrJoin : List JsVal → String
  | [] => ""
  | [.null] => ""
  | [x] => jsToString x
  | .null :: y :: xs => "," ++ jsArrJoin (y :: xs)
  | x :: y :: xs => jsToString x ++ "," ++ jsArrJoin (y :: xs)

end

/-- The ECMAScript whitespace set, as used by `String.prototype.trim`,
`parseInt`, and the `\s` regex class: ASCII whitespace plus the
Unicode space separators, line separators and BOM. -/
def jsWs (c : Char) : Bool :=
  c = ' ' || c = '\t' || c = '\n' || c = '\r' || c = '\x0b' || c = '\x0c' ||
  decide (c.toNat = 0xa0) || decide (c.toNat = 0x1680) ||
  decide (0x2000 ≤ c.toNat ∧ c.toNat ≤ 0x200a) ||
  decide (c.toNat = 0x2028 ∨ c.toNat = 0x2029 ∨ c.toNat = 0x202f ∨
          c.toNat = 0x205f ∨ c.toNat = 0x3000 ∨ c.toNat = 0xfeff)

/-- JS `String.prototype.trim`: remove leading and trailing
whitespace. -/
def jsTrim (s : String) : String :=
  String.mk (((s.data.dropWhile jsWs).reverse.dropWhile jsWs).reverse)

/-- JS `parseInt(s, 10)`: skip leading whitespace, optional sign, then
the longest prefix of decimal digits; `none` models `NaN` (no
digits). -/
def parseIntStr (s : String) : Option Int :=
  let cs := s.data.dropWhile jsWs
  let (neg, cs1) : Bool × List Char :=
    match cs with
    | '-' :: r => (true, r)
    | '+' :: r => (false, r)
    | _ => (false, cs)
  let (ds, _) := cs1.span Char.isDigit
  if ds = [] then none
  else some (if neg then -(digitsVal ds : Int) else (digitsVal ds : Int))

/-- `parseInt(v, 10)` on a JS value: coerce to string, parse; `NaN` on
failure. -/
def jsParseIntVal (v : JsVal) : JsVal :=
  match parseIntStr (jsToString v) with
  | some i => .num i 0
  | none => .nan

/-- `JSON.parse(v)` where `v` need not be a string: `JSON.parse`
coerces its argument with `String(·)` first.  Strings are parsed
directly (`String` is the identity on them). -/
def jsonParseOfVal (v : JsVal) : Option JsVal :=
  match v with
  | .str s => jsonParse s
  | v => jsonParse (jsToString v)

/-- JS strict equality `v === 'true'`: true exactly on the string
`"true"` (strings compare by value, any other type differs). -/
def strictEqTrue (v : JsVal) : Bool :=
  match v with
  | .str s => s == "true"
  | _ => false

/-- Object spread `{...v}`: own enumerable properties of `v`, i.e. the
fields of an object, the indexed characters of a string, the indexed
elements of an array, and nothing for any other primitive. -/
def spreadFields : JsVal → List (String × JsVal)
  | .obj fs => fs
  | .str s => s.data.enum.map fun p => (toString p.1, JsVal.str (String.mk [p.2]))
  | .arr xs => xs.enum.map fun p => (toString p.1, p.2)
  | _ => []

/-! ## Config resolution (`buildMermaidConfig`, `src/ui/mermaid.tsx`
lines 62–118) -/

/-- Property access with `undefined` collapsed to `null`: both are
falsy, and the value is only ever used under a truthiness guard, so
the collapse is observation-equivalent here. -/
def propGetD (v : JsVal) (key : String) : JsVal :=
  (propGet v key).getD .null

/-- The `theme` assignment of the flat path (lines 90–95): the flat
`theme` attribute when truthy, else the override when truthy, else no
`theme` field. -/
def themeFieldOf (parsed : JsVal) (themeOverride : Option String) :
    List (String × JsVal) :=
  if (propGetD parsed "theme").truthy then
    objSet [] "theme" (propGetD parsed "theme")
  else if strOptTruthy themeOverride then
    objSet [] "theme" (.str (themeOverride.getD ""))
  else []

/-- The packet option group (lines 97–102): `rowHeight` and
`bitsPerRow` through `parseInt(·, 10)`, `showBits` through
`=== 'true'`, each only when the flat attribute is truthy. -/
def packetOptionsOf (parsed : JsVal) : List (String × JsVal) :=
  let packetOptions : List (String × JsVal) := []
  let packetOptions :=
    if (propGetD parsed "rowHeight").truthy then
      objSet packetOptions "rowHeight" (jsParseIntVal (propGetD parsed "rowHeight"))
    else packetOptions
  let packetOptions :=
    if (propGetD parsed "bitsPerRow").truthy then
      objSet packetOptions "bitsPerRow" (jsParseIntVal (propGetD parsed "bitsPerRow"))
    else packetOptions
  let packetOptions :=
    if (propGetD parsed "showBits").truthy then
      objSet packetOptions "showBits" (.bool (strictEqTrue (propGetD parsed "showBits")))
    else packetOptions
  packetOptions

/-- The flowchart option group (lines 104–109): `nodeSpacing` and
`rankSpacing` through `parseInt(·, 10)`, `curve` stored raw. -/
def flowchartOptionsOf (parsed : JsVal) : List (String × JsVal) :=
  let flowchartOptions : List (String × JsVal) := []
  let flowchartOptions :=
    if (propGetD parsed "nodeSpacing").truthy then
      objSet flowchartOptions "nodeSpacing" (jsParseIntVal (propGetD parsed "nodeSpacing"))
    else flowchartOptions
  let flowchartOptions :=
    if (propGetD parsed "rankSpacing").truthy then
      objSet flowchartOptions "rankSpacing" (jsParseIntVal (propGetD parsed "rankSpacing"))
    else flowchartOptions
  let flowchartOptions :=
    if (propGetD parsed "curve").truthy then
      objSet flowchartOptions "curve" (propGetD parsed "curve")
    else flowchartOptions
  flowchartOptions

/-- The sequence option group (lines 111–115): `mirrorActors` through
`=== 'true'`, `messageAlign` stored raw. -/
def sequenceOptionsOf (parsed : JsVal) : List (String × JsVal) :=
  let sequenceOptions : List (String × JsVal) := []
  let sequenceOptions :=
    if (propGetD parsed "mirrorActors").truthy then
      objSet sequenceOptions "mirrorActors" (.bool (strictEqTrue (propGetD parsed "mirrorActors")))
    else sequenceOptions
  let sequenceOptions :=
    if (propGetD parsed "messageAlign").truthy then
      objSet sequenceOptions "messageAlign" (propGetD parsed "messageAlign")
    else sequenceOptions
  sequenceOptions

/-- The flat-attribute path of `buildMermaidConfig` (lines 88–117):
the `theme` field, then each of the three family groups, attached
(`Object.keys(...).length > 0`) only when non-empty. -/
def flatResolve (parsed : JsVal) (themeOverride : Option String) :
    List (String × JsVal) :=
  let config := themeFieldOf parsed themeOverride
  let config :=
    if (packetOptionsOf parsed).isEmpty then config
    else objSet config "packet" (.obj (packetOptionsOf parsed))
  let config :=
    if (flowchartOptionsOf parsed).isEmpty then config
    else objSet config "flowchart" (.obj (flowchartOptionsOf parsed))
  let config :=
    if (sequenceOptionsOf parsed).isEmpty then config
    else objSet config "sequence" (.obj (sequenceOptionsOf parsed))
  config

/-- The `\x7btheme: themeOverride\x7d`-or-empty fallback used when the
config string is absent, empty, or fails to parse. -/
def themeFallback (themeOverride : Option String) : List (String × JsVal) :=
  if strOptTruthy themeOverride then [("theme", .str (themeOverride.getD ""))] else []

/-- `buildMermaidConfig(configStr, themeOverride)`: the effective
config of a render, as an object (field list).  `Except Unit` models
the uncaught `TypeError` thrown by the property access
`parsed.config` when the config string parses to JSON `null` (the
`try` block around it only covers `JSON.parse`). -/
def buildMermaidConfig (configStr : Option String) (themeOverride : Option String) :
    Except Unit (List (String × JsVal)) :=
  if ¬ strOptTruthy configStr then .ok (themeFallback themeOverride)
  else
    match jsonParse (configStr.getD "") with
    | none => .ok (themeFallback themeOverride)
    | some .null => .error ()
    | some parsed =>
      if (propGetD parsed "config").truthy then
        match jsonParseOfVal (propGetD parsed "config") with
        | some nestedConfig =>
          let result := spreadFields nestedConfig
          let result :=
            if (propGetD parsed "theme").truthy then
              objSet result "theme" (propGetD parsed "theme")
            else result
          let result :=
            if strOptTruthy themeOverride then
              objSet result "theme" (.str (themeOverride.getD ""))
            else result
          .ok result
        | none => .ok (flatResolve parsed themeOverride)
      else .ok (flatResolve parsed themeOverride)

/-! ## Attribute parsing (`parseCodeBlockAttributes`,
`remark-mdx-mermaid.ts` lines 27–38)

The meta string is rewritten with
`str.replaceAll(/(?<=^|\s)(\w+)(?:=(?:"([^"]*)"|'([^']*)'))?/g, ...)`:
scanning left to right, at every position that is the start of the
string or preceded by whitespace, a maximal run of word characters is
matched, optionally followed by `="..."` or `='...'` with a complete
closing quote; each match records an attribute (value `null` when no
complete quoted value follows) and is deleted from the string.  The
greedy `\w+` cannot trade characters with the optional value group
(`=` is not a word character), so the scan below is the regex's exact
behaviour. -/

/-- The regex class `\w`: ASCII letters, digits and underscore. -/
def isWordChar (c : Char) : Bool :=
  ('a' ≤ c && c ≤ 'z') || ('A' ≤ c && c ≤ 'Z') || ('0' ≤ c && c ≤ '9') || c = '_'

/-- An attribute bag: JS object from names to string values, `none`
for a flag attribute with no value.  Insertion-ordered with unique
keys, like `JsVal.obj`. -/
abbrev AttrBag := List (String × Option String)

/-- Lookup in an attribute bag. -/
def bagGet (bag : AttrBag) (key : String) : Option (Option String) :=
  match bag with
  | [] => none
  | (k, v) :: tl => if k = key then some v else bagGet tl key

/-- JS object assignment `attributes[name] = value`: overwrite in
place, else append (duplicate meta keys: last write wins). -/
def bagSet (bag : AttrBag) (key : String) (v : Option String) : AttrBag :=
  match bag with
  | [] => [(key, v)]
  | (k, w) :: tl => if k = key then (k, v) :: tl else (k, w) :: bagSet tl key v

/-- Split a character list at the first occurrence of `q`: the part
before it and the part after it, or `none` when `q` does not occur
(an unterminated quote). -/
def splitAtChar (q : Char) : List Char → Option (List Char × List Char)
  | [] => none
  | c :: cs =>
    if c = q then some ([], cs)
    else (splitAtChar q cs).map fun p => (c :: p.1, p.2)

/-- The optional value group `(?:=(?:"([^"]*)"|'([^']*)'))?` right
after a matched name: `="..."` or `='...'` with a complete closing
quote, else no value (the group matches empty, leaving the input in
place). -/
def tryQuotedValue : List Char → Option (String × List Char)
  | '=' :: '"' :: r => (splitAtChar '"' r).map fun p => (String.mk p.1, p.2)
  | '=' :: '\'' :: r => (splitAtChar '\'' r).map fun p => (String.mk p.1, p.2)
  | _ => none

/-- One left-to-right pass of the attribute regex over the meta
string.  `boundary` records whether the current position is at the
start of the string or preceded by whitespace (the `(?<=^|\s)`
lookbehind, evaluated on the original string — after a match the
preceding character is a word character or closing quote, never
whitespace).  Matched spans are deleted; everything else accumulates
into the residual `res`.  `fuel` only bounds recursion; each step
consumes at least one character, so `length + 1` suffices. -/
def scanMeta : Nat → List Char → Bool → AttrBag → List Char → AttrBag × List Char
  | 0, cs, _, bag, res => (bag, res ++ cs)
  | _ + 1, [], _, bag, res => (bag, res)
  | fuel + 1, c :: cs, boundary, bag, res =>
    if boundary && isWordChar c then
      let name := String.mk ((c :: cs).takeWhile isWordChar)
      let rest := (c :: cs).dropWhile isWordChar
      match tryQuotedValue rest with
      | some (v, rest2) => scanMeta fuel rest2 false (bagSet bag name (some v)) res
      | none => scanMeta fuel rest false (bagSet bag name none) res
    else
      scanMeta fuel cs (jsWs c) bag (res ++ [c])

/-- `parseCodeBlockAttributes(meta)`: the attribute bag and the
trimmed residual string. -/
def parseCodeBlockAttributes (meta : String) : AttrBag × String :=
  let (bag, res) := scanMeta (meta.length + 1) meta.data true [] []
  (bag, jsTrim (String.mk res))

/-! ## Block rewriting (`toMDX`, `remarkMdxMermaid`,
`remark-mdx-mermaid.ts` lines 40–108) -/

/-- A node of the document tree, as this plugin observes it: a code
block with `lang`, `meta` and `value`; an MDX flow element with a
component name and string-valued attributes; or any other node,
opaque to the rewriter. -/
inductive MdastNode where
  | code (lang : Option String) (meta : Option String) (value : String) : MdastNode
  | mdxJsxFlowElement (name : String) (attributes : List (String × String)) : MdastNode
  | other (id : Nat) : MdastNode
deriving Repr, DecidableEq

/-- The JSON encoding of an attribute bag (its `JSON.stringify`),
with `null` for value-less flags. -/
def stringifyBag (bag : AttrBag) : String :=
  stringifyV (.obj (bag.map fun p => (p.1, p.2.elim JsVal.null JsVal.str)))

/-- `toMDX(code, config)`: the replacement `<Mermaid />` element,
carrying the trimmed body as `chart` and, only when the bag is
non-empty, its JSON encoding as `config`. -/
def toMDX (code : String) (config : AttrBag) : MdastNode :=
  .mdxJsxFlowElement "Mermaid"
    ([("chart", jsTrim code)] ++
      if config.isEmpty then [] else [("config", stringifyBag config)])

/-- The visitor body of `remarkMdxMermaid` on one code node: matching
language and non-empty body are rewritten via the parsed meta
attributes; everything else is returned unchanged. -/
def visitCode (lang : String) (node : MdastNode) : MdastNode :=
  match node with
  | .code l m v =>
    if l = some lang ∧ v ≠ "" then
      toMDX v (parseCodeBlockAttributes (m.getD "")).1
    else node
  | n => n

/-- The default language identifier for mermaid code blocks. -/
def defaultLang : String := "mermaid"

/-- The transformer returned by `remarkMdxMermaid`: visit every code
node of the tree once, in document order, rewriting the matching
ones in place.  The tree is modelled as the list of its nodes in
visit order; `visit(tree, 'code', ...)` touches only code nodes. -/
def remarkMdxMermaid (lang : String) (tree : List MdastNode) : List MdastNode :=
  tree.map (visitCode lang)

/-- First attribute with the given name on an MDX element, if any. -/
def getAttr (node : MdastNode) (name : String) : Option String :=
  match node with
  | .mdxJsxFlowElement _ attrs => (attrs.find? fun p => p.1 = name).map Prod.snd
  | _ => none

/-! ## Render cache (`cachePromise`, `MermaidContent`,
`src/ui/mermaid.tsx` lines 138–148 and 261–292) -/

/-- The process-wide cache (`const cache = new Map(...)`) plus
bookkeeping for the properties of interest: `entries` maps each cache
key to the promise stored under it (promises are numbered in creation
order, so equal numbers mean the identical promise object); `calls`
counts how many times a `setPromise` thunk was invoked; `submitted`
records, per created promise, the work it computes (the composed
source handed to `mermaid.render`, or the module import). -/
structure CacheState where
  entries : List (String × Nat)
  nextId : Nat
  calls : Nat
  submitted : List (Nat × String)
deriving Repr, DecidableEq

/-- `Map.prototype.get` on the cache. -/
def lookupEntry (l : List (String × Nat)) (key : String) : Option Nat :=
  match l with
  | [] => none
  | (k, v) :: tl => if k = key then some v else lookupEntry tl key

/-- `cachePromise(key, setPromise)`: return the cached promise when
the key is present; otherwise invoke the thunk (counted in `calls`),
store the new promise under the key, and return it.  `work` is the
computation the thunk would start, recorded for the new promise. -/
def cachePromise (key : String) (work : String) (st : CacheState) :
    Nat × CacheState :=
  match lookupEntry st.entries key with
  | some p => (p, st)
  | none =>
    (st.nextId,
      { entries := st.entries ++ [(key, st.nextId)]
        nextId := st.nextId + 1
        calls := st.calls + 1
        submitted := st.submitted ++ [(st.nextId, work)] })

/-- `MermaidContent`'s resolved theme:
`themeOverride ?? (systemTheme === 'dark' ? 'dark' : 'default')`.
`??` tests only for `null`/`undefined`, not truthiness. -/
def resolvedThemeOf (themeOverride : Option String) (systemTheme : Option String) :
    String :=
  match themeOverride with
  | some t => t
  | none => if systemTheme = some "dark" then "dark" else "default"

/-- `chart.replaceAll('\\n', '\n')`: every two-character backslash-n
sequence becomes a line feed, scanning left to right without
overlap. -/
def unescapeNewlines : List Char → List Char
  | '\\' :: 'n' :: rest => '\n' :: unescapeNewlines rest
  | c :: rest => c :: unescapeNewlines rest
  | [] => []

/-- The composite cache key of a render:
`` `${chart}-${resolvedTheme}-${configStr ?? ''}` `` — the raw
diagram source, the resolved theme and the raw serialized config
string.  `themeCSS` is not part of it. -/
def renderKey (chart : String) (resolvedTheme : String) (configStr : Option String) :
    String :=
  chart ++ "-" ++ resolvedTheme ++ "-" ++ configStr.getD ""

/-- The per-diagram config of a render: `buildMermaidConfig` plus the
assignment `diagramConfig.themeCSS = themeCSS`. -/
def diagramConfigOf (configStr : Option String) (resolvedTheme : String)
    (themeCSS : String) : Except Unit (List (String × JsVal)) :=
  (buildMermaidConfig configStr (some resolvedTheme)).map fun c =>
    objSet c "themeCSS" (.str themeCSS)

/-- The composed source submitted to `mermaid.render`: the init
directive embedding the serialized per-diagram config, then the chart
with escaped newlines normalized. -/
def fullChartOf (chart : String) (configStr : Option String) (resolvedTheme : String)
    (themeCSS : String) : Except Unit String :=
  (diagramConfigOf configStr resolvedTheme themeCSS).map fun c =>
    "%%\x7binit: " ++ stringifyV (.obj c) ++ "\x7d%%\n" ++
      String.mk (unescapeNewlines chart.data)

/-- One render attempt of `MermaidContent` (lines 261–292), from the
props and ambient theme to the promise whose result is mounted:
resolve the theme, build the per-diagram config and composed source,
and memoize the engine render under the composite key.  The module
load (`cachePromise('mermaid', ...)`) is the same `cachePromise`
mechanism under the singleton key and is orthogonal to the per-render
state, so it is not repeated here.  `Except` propagates the
`buildMermaidConfig` exception, which aborts the attempt before the
cache is touched. -/
def renderRequest (chart : String) (themeOverride systemTheme : Option String)
    (themeCSS : String) (configStr : Option String) (st : CacheState) :
    Except Unit (Nat × CacheState) :=
  let resolvedTheme := resolvedThemeOf themeOverride systemTheme
  (fullChartOf chart configStr resolvedTheme themeCSS).map fun fc =>
    cachePromise (renderKey chart resolvedTheme configStr) fc st

/-! ## Basic lemmas about the object and cache models -/

theorem objGet_objSet_self (l : List (String × JsVal)) (k : String) (v : JsVal) :
    objGet (objSet l k v) k = some v := by
  induction l with
  | nil => simp [objSet, objGet]
  | cons hd tl ih =>
    obtain ⟨k', w⟩ := hd
    by_cases h : k' = k
    · subst h; simp [objSet, objGet]
    · simp [objSet, objGet, h, ih]

theorem objGet_objSet_ne (l : List (String × JsVal)) (k k' : String) (v : JsVal)
    (h : k' ≠ k) : objGet (objSet l k' v) k = objGet l k := by
  induction l with
  | nil => simp [objSet, objGet, h]
  | cons hd tl ih =>
    obtain ⟨k0, w⟩ := hd
    by_cases h0 : k0 = k'
    · subst h0; simp [objSet, objGet, h]
    · by_cases h1 : k0 = k
      · subst h1; simp [objSet, objGet, h0]
      · simp [objSet, objGet, h0, h1, ih]

theorem objSet_ne_nil (l : List (String × JsVal)) (k : String) (v : JsVal) :
    objSet l k v ≠ [] := by
  cases l with
  | nil => simp [objSet]
  | cons hd tl =>
    obtain ⟨k0, w⟩ := hd
    by_cases h : k0 = k <;> simp [objSet, h]

theorem objGet_isSome_objSet (l : List (String × JsVal)) (k k' : String) (v : JsVal)
    (h : (objGet (objSet l k' v) k).isSome) : k = k' ∨ (objGet l k).isSome := by
  by_cases hk : k = k'
  · exact Or.inl hk
  · right
    rwa [objGet_objSet_ne l k k' v (fun he => hk he.symm)] at h

theorem truthy_propGetD_isSome (o : List (String × JsVal)) (k : String)
    (h : (propGetD (.obj o) k).truthy = true) : (objGet o k).isSome := by
  cases hg : objGet o k with
  | none => simp [propGetD, propGet, hg, JsVal.truthy] at h
  | some v => simp

theorem lookupEntry_append_some (l l' : List (String × Nat)) (k : String) (p : Nat)
    (h : lookupEntry l k = some p) : lookupEntry (l ++ l') k = some p := by
  induction l with
  | nil => simp [lookupEntry] at h
  | cons hd tl ih =>
    obtain ⟨k0, v⟩ := hd
    by_cases h0 : k0 = k
    · subst h0; simp [lookupEntry] at h ⊢; exact h
    · simp [lookupEntry, h0] at h ⊢; exact ih h

theorem lookupEntry_append_single_none (l : List (String × Nat)) (k k' : String) (v : Nat)
    (h : lookupEntry l k = none) :
    lookupEntry (l ++ [(k', v)]) k = if k' = k then some v else none := by
  induction l with
  | nil => simp [lookupEntry]
  | cons hd tl ih =>
    obtain ⟨k0, w⟩ := hd
    by_cases h0 : k0 = k
    · subst h0; simp [lookupEntry] at h
    · simp [lookupEntry, h0] at h ⊢; exact ih h

/-- A cache hit returns the stored promise and leaves the state
untouched. -/
theorem cachePromise_hit (st : CacheState) (k w : String) (p : Nat)
    (h : lookupEntry st.entries k = some p) : cachePromise k w st = (p, st) := by
  unfold cachePromise
  rw [h]

/-- Any single cache operation preserves every stored entry. -/
theorem cachePromise_preserves (st : CacheState) (k w : String) (k' : String) (p : Nat)
    (h : lookupEntry st.entries k' = some p) :
    lookupEntry ((cachePromise k w st).2).entries k' = some p := by
  unfold cachePromise
  cases hl : lookupEntry st.entries k with
  | some q => simpa using h
  | none => simpa using lookupEntry_append_some _ _ _ _ h

/-- Run a sequence of cache operations (key and work of each),
keeping only the final state. -/
def runKeys (ops : List (String × String)) (st : CacheState) : CacheState :=
  match ops with
  | [] => st
  | (k, w) :: tl => runKeys tl (cachePromise k w st).2

/-- Any sequence of cache operations preserves every stored entry. -/
theorem runKeys_preserves (ops : List (String × String)) (st : CacheState)
    (k : String) (p : Nat) (h : lookupEntry st.entries k = some p) :
    lookupEntry (runKeys ops st).entries k = some p := by
  induction ops generalizing st with
  | nil => exact h
  | cons op tl ih =>
    obtain ⟨k0, w0⟩ := op
    exact ih _ (cachePromise_preserves st k0 w0 k p h)

/-! ## C2: each cache key computes at most once -/

/-- Claim C2: For every cache key, the deferred computation is started
at most once per process lifetime: a first call to `cachePromise` on a
fresh key invokes the thunk (one new call), stores the promise it
created, and after any further sequence of cache operations `ops`, a
later call with the same key — with any thunk `w'` — returns exactly
that stored promise and changes nothing (the thunk is not invoked). -/
theorem cachePromise_computes_once (st : CacheState) (k w : String) (p : Nat)
    (st1 : CacheState) (ops : List (String × String)) (w' : String)
    (hfresh : lookupEntry st.entries k = none)
    (hrun : cachePromise k w st = (p, st1)) :
    lookupEntry st1.entries k = some p ∧
    st1.calls = st.calls + 1 ∧
    cachePromise k w' (runKeys ops st1) = (p, runKeys ops st1) := by
  unfold cachePromise at hrun
  rw [hfresh] at hrun
  injection hrun with hp hst
  subst hp
  subst hst
  have hstored : lookupEntry
      (st.entries ++ [(k, st.nextId)]) k = some st.nextId := by
    rw [lookupEntry_append_single_none _ _ _ _ hfresh]
    simp
  refine ⟨hstored, rfl, ?_⟩
  exact cachePromise_hit _ k w' _ (runKeys_preserves ops _ k _ hstored)

/-- Witness for C2 at the singleton engine key: a fresh cache, one
load, one unrelated render operation in between, then a repeated
lookup with a different thunk. -/
theorem cachePromise_computes_once_witness :
    lookupEntry (CacheState.mk [("mermaid", 0)] 1 1 [(0, "import")]).entries
      "mermaid" = some 0 ∧
    (CacheState.mk [("mermaid", 0)] 1 1 [(0, "import")]).calls =
      (CacheState.mk [] 0 0 []).calls + 1 ∧
    cachePromise "mermaid" "import again"
        (runKeys [("chart-dark-", "render")]
          (CacheState.mk [("mermaid", 0)] 1 1 [(0, "import")])) =
      (0, runKeys [("chart-dark-", "render")]
        (CacheState.mk [("mermaid", 0)] 1 1 [(0, "import")])) :=
  cachePromise_computes_once (CacheState.mk [] 0 0 []) "mermaid" "import" 0
    (CacheState.mk [("mermaid", 0)] 1 1 [(0, "import")])
    [("chart-dark-", "render")] "import again" rfl rfl

/-! ## C4: different config strings render independently -/

/-- With chart and resolved theme fixed, the composite key is
injective in the (present) config string: the key ends with the raw
config string after a fixed prefix. -/
theorem renderKey_config_inj (chart theme c1 c2 : String) (h : c1 ≠ c2) :
    renderKey chart theme (some c1) ≠ renderKey chart theme (some c2) := by
  intro he
  apply h
  simp only [renderKey, Option.getD_some] at he
  have h2 := congrArg String.data he
  rw [String.data_append, String.data_append] at h2
  exact String.ext (List.append_cancel_left h2)

/-- Claim C4: Two render requests with the same chart and the same
resolved theme (same override and ambient mode) but different config
strings have different composite keys; on a cache fresh for both
keys, they create two independent entries and invoke the engine
render twice (`calls` grows by two, and the two promises differ). -/
theorem distinct_config_renders_twice
    (st : CacheState) (chart css1 css2 c1 c2 : String) (ov sys : Option String)
    (p1 p2 : Nat) (st1 st2 : CacheState)
    (hne : c1 ≠ c2)
    (hf1 : lookupEntry st.entries
      (renderKey chart (resolvedThemeOf ov sys) (some c1)) = none)
    (hf2 : lookupEntry st.entries
      (renderKey chart (resolvedThemeOf ov sys) (some c2)) = none)
    (hr1 : renderRequest chart ov sys css1 (some c1) st = .ok (p1, st1))
    (hr2 : renderRequest chart ov sys css2 (some c2) st1 = .ok (p2, st2)) :
    renderKey chart (resolvedThemeOf ov sys) (some c1) ≠
      renderKey chart (resolvedThemeOf ov sys) (some c2) ∧
    st2.calls = st.calls + 2 ∧
    lookupEntry st2.entries
      (renderKey chart (resolvedThemeOf ov sys) (some c1)) = some p1 ∧
    lookupEntry st2.entries
      (renderKey chart (resolvedThemeOf ov sys) (some c2)) = some p2 ∧
    p1 ≠ p2 := by
  have hkne := renderKey_config_inj chart (resolvedThemeOf ov sys) c1 c2 hne
  cases hfc1 : fullChartOf chart (some c1) (resolvedThemeOf ov sys) css1 with
  | error e => rw [renderRequest, hfc1] at hr1; exact absurd hr1 (by simp [Except.map])
  | ok fc1 =>
    rw [renderRequest, hfc1] at hr1
    simp only [Except.map, Except.ok.injEq] at hr1
    rw [cachePromise, hf1] at hr1
    injection hr1 with hp1 hst1
    subst hp1
    subst hst1
    cases hfc2 : fullChartOf chart (some c2) (resolvedThemeOf ov sys) css2 with
    | error e => rw [renderRequest, hfc2] at hr2; exact absurd hr2 (by simp [Except.map])
    | ok fc2 =>
      rw [renderRequest, hfc2] at hr2
      simp only [Except.map, Except.ok.injEq] at hr2
      have hf2' : lookupEntry
          (st.entries ++ [(renderKey chart (resolvedThemeOf ov sys) (some c1), st.nextId)])
          (renderKey chart (resolvedThemeOf ov sys) (some c2)) = none := by
        rw [lookupEntry_append_single_none _ _ _ _ hf2, if_neg hkne]
      rw [cachePromise] at hr2
      simp only [hf2'] at hr2
      injection hr2 with hp2 hst2
      subst hp2
      subst hst2
      have hk1 : lookupEntry
          (st.entries ++ [(renderKey chart (resolvedThemeOf ov sys) (some c1), st.nextId)])
          (renderKey chart (resolvedThemeOf ov sys) (some c1)) = some st.nextId := by
        rw [lookupEntry_append_single_none _ _ _ _ hf1]
        simp
      refine ⟨hkne, rfl, ?_, ?_, by simp⟩
      · exact lookupEntry_append_some _ _ _ _ hk1
      · rw [lookupEntry_append_single_none _ _ _ _ hf2']
        simp

/-- Witness for C4: same chart `"g"` and theme override `"dark"`, two
different config strings, starting from the empty cache. -/
theorem distinct_config_renders_twice_witness :
    renderKey "g" (resolvedThemeOf (some "dark") none) (some "\x7b\"curve\":\"basis\"\x7d") ≠
      renderKey "g" (resolvedThemeOf (some "dark") none) (some "\x7b\x7d") ∧
    ((renderRequest "g" (some "dark") none "css" (some "\x7b\x7d")
        ((renderRequest "g" (some "dark") none "css" (some "\x7b\"curve\":\"basis\"\x7d")
          (CacheState.mk [] 0 0 [])).toOption.get rfl).2).toOption.get rfl).2.calls =
      (CacheState.mk [] 0 0 []).calls + 2 ∧
    lookupEntry ((renderRequest "g" (some "dark") none "css" (some "\x7b\x7d")
        ((renderRequest "g" (some "dark") none "css" (some "\x7b\"curve\":\"basis\"\x7d")
          (CacheState.mk [] 0 0 [])).toOption.get rfl).2).toOption.get rfl).2.entries
      (renderKey "g" (resolvedThemeOf (some "dark") none) (some "\x7b\"curve\":\"basis\"\x7d")) =
        some 0 ∧
    lookupEntry ((renderRequest "g" (some "dark") none "css" (some "\x7b\x7d")
        ((renderRequest "g" (some "dark") none "css" (some "\x7b\"curve\":\"basis\"\x7d")
          (CacheState.mk [] 0 0 [])).toOption.get rfl).2).toOption.get rfl).2.entries
      (renderKey "g" (resolvedThemeOf (some "dark") none) (some "\x7b\x7d")) = some 1 ∧
    (0 : Nat) ≠ 1 :=
  distinct_config_renders_twice (CacheState.mk [] 0 0 []) "g" "css" "css"
    "\x7b\"curve\":\"basis\"\x7d" "\x7b\x7d" (some "dark") none 0 1 _ _
    (by decide) rfl rfl rfl rfl

/-! ## C10: `themeCSS` is embedded in the rendered source but not in
the cache key -/

/-- Claim C10: Two render invocations agreeing on chart, resolved theme
and config string but differing in `themeCSS` share one composite key
(the key is a function of chart, theme and config only): after the
first request, the second returns exactly the first request's promise
and leaves the cache unchanged, so its own `themeCSS` has no effect
on the markup obtained.  Meanwhile `themeCSS` does reach the engine:
the composed source submitted for the first promise embeds the
serialized config whose `themeCSS` field is the first `themeCSS`. -/
theorem themeCSS_shared_cache_entry
    (st : CacheState) (chart css1 css2 : String) (ov sys cfg : Option String)
    (p1 : Nat) (st1 : CacheState)
    (hfresh : lookupEntry st.entries
      (renderKey chart (resolvedThemeOf ov sys) cfg) = none)
    (hr1 : renderRequest chart ov sys css1 cfg st = .ok (p1, st1)) :
    renderRequest chart ov sys css2 cfg st1 = .ok (p1, st1) ∧
    ∃ fc1 dcfg,
      fullChartOf chart cfg (resolvedThemeOf ov sys) css1 = .ok fc1 ∧
      (p1, fc1) ∈ st1.submitted ∧
      diagramConfigOf cfg (resolvedThemeOf ov sys) css1 = .ok dcfg ∧
      objGet dcfg "themeCSS" = some (.str css1) ∧
      fc1 = "%%\x7binit: " ++ stringifyV (.obj dcfg) ++ "\x7d%%\n" ++
        String.mk (unescapeNewlines chart.data) := by
  cases hb : buildMermaidConfig cfg (some (resolvedThemeOf ov sys)) with
  | error e =>
    rw [renderRequest, fullChartOf, diagramConfigOf, hb] at hr1
    exact absurd hr1 (by simp [Except.map])
  | ok b =>
    have hdc1 : diagramConfigOf cfg (resolvedThemeOf ov sys) css1 =
        .ok (objSet b "themeCSS" (.str css1)) := by
      rw [diagramConfigOf, hb]; rfl
    have hfc1 : fullChartOf chart cfg (resolvedThemeOf ov sys) css1 =
        .ok ("%%\x7binit: " ++ stringifyV (.obj (objSet b "themeCSS" (.str css1))) ++
          "\x7d%%\n" ++ String.mk (unescapeNewlines chart.data)) := by
      rw [fullChartOf, hdc1]; rfl
    rw [renderRequest, hfc1] at hr1
    simp only [Except.map, Except.ok.injEq] at hr1
    rw [cachePromise, hfresh] at hr1
    injection hr1 with hp1 hst1
    subst hp1
    subst hst1
    have hdc2 : diagramConfigOf cfg (resolvedThemeOf ov sys) css2 =
        .ok (objSet b "themeCSS" (.str css2)) := by
      rw [diagramConfigOf, hb]; rfl
    have hfc2 : fullChartOf chart cfg (resolvedThemeOf ov sys) css2 =
        .ok ("%%\x7binit: " ++ stringifyV (.obj (objSet b "themeCSS" (.str css2))) ++
          "\x7d%%\n" ++ String.mk (unescapeNewlines chart.data)) := by
      rw [fullChartOf, hdc2]; rfl
    have hhit : lookupEntry
        (st.entries ++ [(renderKey chart (resolvedThemeOf ov sys) cfg, st.nextId)])
        (renderKey chart (resolvedThemeOf ov sys) cfg) = some st.nextId := by
      rw [lookupEntry_append_single_none _ _ _ _ hfresh]
      simp
    constructor
    · rw [renderRequest, hfc2]
      simp only [Except.map, Except.ok.injEq]
      rw [cachePromise]
      simp only [hhit]
    · refine ⟨_, _, hfc1, ?_, hdc1, objGet_objSet_self b "themeCSS" (.str css1), rfl⟩
      simp

/-- Witness for C10: same chart, theme and config, two different CSS
strings, starting from the empty cache. -/
theorem themeCSS_shared_cache_entry_witness :
    renderRequest "g" (some "dark") none "margin: 0;" none
        ((renderRequest "g" (some "dark") none "margin: 1.5rem auto 0;" none
          (CacheState.mk [] 0 0 [])).toOption.get rfl).2 =
      .ok (0, ((renderRequest "g" (some "dark") none "margin: 1.5rem auto 0;" none
        (CacheState.mk [] 0 0 [])).toOption.get rfl).2) ∧
    ∃ fc1 dcfg,
      fullChartOf "g" none (resolvedThemeOf (some "dark") none) "margin: 1.5rem auto 0;" =
        .ok fc1 ∧
      (0, fc1) ∈ ((renderRequest "g" (some "dark") none "margin: 1.5rem auto 0;" none
        (CacheState.mk [] 0 0 [])).toOption.get rfl).2.submitted ∧
      diagramConfigOf none (resolvedThemeOf (some "dark") none) "margin: 1.5rem auto 0;" =
        .ok dcfg ∧
      objGet dcfg "themeCSS" = some (.str "margin: 1.5rem auto 0;") ∧
      fc1 = "%%\x7binit: " ++ stringifyV (.obj dcfg) ++ "\x7d%%\n" ++
        String.mk (unescapeNewlines "g".data) :=
  themeCSS_shared_cache_entry (CacheState.mk [] 0 0 []) "g"
    "margin: 1.5rem auto 0;" "margin: 0;" (some "dark") none none 0 _ rfl rfl

/-! ## C9: non-matching and empty code blocks are left unchanged -/

/-- Claim C9: Every code node whose language differs from the target,
and every code node with matching language but empty body, is left
structurally unchanged by the rewriter, at its original position;
the traversal never changes the number of nodes. -/
theorem nonmatching_code_unchanged
    (lang : String) (tree : List MdastNode) (i : Nat) (l m : Option String) (v : String)
    (hnode : tree[i]? = some (.code l m v))
    (hcond : l ≠ some lang ∨ v = "") :
    (remarkMdxMermaid lang tree)[i]? = some (.code l m v) ∧
    (remarkMdxMermaid lang tree).length = tree.length := by
  have hvisit : visitCode lang (.code l m v) = .code l m v := by
    simp only [visitCode]
    rw [if_neg]
    rintro ⟨h1, h2⟩
    rcases hcond with h | h
    · exact h h1
    · exact h2 h
  refine ⟨?_, List.length_map tree (visitCode lang)⟩
  rw [remarkMdxMermaid, List.getElem?_map, hnode, Option.map_some', hvisit]

/-- Witness for C9 on a three-node tree: a `js` code block and an
empty-bodied `mermaid` block, both untouched (checked at indices 0
and 2). -/
theorem nonmatching_code_unchanged_witness :
    (remarkMdxMermaid "mermaid"
        [.code (some "js") none "let x = 1;", .other 7,
         .code (some "mermaid") (some "a=\"1\"") ""])[0]? =
      some (.code (some "js") none "let x = 1;") ∧
    (remarkMdxMermaid "mermaid"
        [.code (some "js") none "let x = 1;", .other 7,
         .code (some "mermaid") (some "a=\"1\"") ""]).length = 3 ∧
    (remarkMdxMermaid "mermaid"
        [.code (some "js") none "let x = 1;", .other 7,
         .code (some "mermaid") (some "a=\"1\"") ""])[2]? =
      some (.code (some "mermaid") (some "a=\"1\"") "") := by
  refine ⟨?_, ?_, ?_⟩
  · exact (nonmatching_code_unchanged "mermaid"
      [.code (some "js") none "let x = 1;", .other 7,
       .code (some "mermaid") (some "a=\"1\"") ""] 0 (some "js") none "let x = 1;"
      rfl (Or.inl (by decide))).1
  · exact (nonmatching_code_unchanged "mermaid"
      [.code (some "js") none "let x = 1;", .other 7,
       .code (some "mermaid") (some "a=\"1\"") ""] 0 (some "js") none "let x = 1;"
      rfl (Or.inl (by decide))).2
  · exact (nonmatching_code_unchanged "mermaid"
      [.code (some "js") none "let x = 1;", .other 7,
       .code (some "mermaid") (some "a=\"1\"") ""] 2 (some "mermaid") (some "a=\"1\"") ""
      rfl (Or.inr rfl)).1

/-! ## C8: rewriting round-trips the body up to trimming -/

/-- `jsTrim` removes exactly a whitespace prefix and a whitespace
suffix: the original character list is whitespace, then the trimmed
list, then whitespace. -/
theorem jsTrim_decomp (s : String) :
    ∃ pre post, (∀ c ∈ pre, jsWs c = true) ∧ (∀ c ∈ post, jsWs c = true) ∧
      s.data = pre ++ (jsTrim s).data ++ post := by
  refine ⟨s.data.takeWhile jsWs,
    ((s.data.dropWhile jsWs).reverse.takeWhile jsWs).reverse, ?_, ?_, ?_⟩
  · intro c hc; exact List.mem_takeWhile_imp hc
  · intro c hc; rw [List.mem_reverse] at hc; exact List.mem_takeWhile_imp hc
  · have h2 : s.data.dropWhile jsWs =
        (jsTrim s).data ++ ((s.data.dropWhile jsWs).reverse.takeWhile jsWs).reverse := by
      have h3 : (s.data.dropWhile jsWs).reverse =
          (s.data.dropWhile jsWs).reverse.takeWhile jsWs ++
            (s.data.dropWhile jsWs).reverse.dropWhile jsWs :=
        (List.takeWhile_append_dropWhile _ _).symm
      have h4 := congrArg List.reverse h3
      rw [List.reverse_reverse, List.reverse_append] at h4
      exact h4
    conv_lhs => rw [← List.takeWhile_append_dropWhile (p := jsWs) (l := s.data), h2]
    rw [List.append_assoc]

/-- The `chart` attribute of the replacement element. -/
theorem getAttr_toMDX_chart (v : String) (bag : AttrBag) :
    getAttr (toMDX v bag) "chart" = some (jsTrim v) := by
  simp [toMDX, getAttr, List.find?]

/-- The replacement element carries a `config` attribute iff the
parsed bag is non-empty. -/
theorem getAttr_toMDX_config (v : String) (bag : AttrBag) :
    (getAttr (toMDX v bag) "config").isSome ↔ bag ≠ [] := by
  cases bag with
  | nil => simp [toMDX, getAttr, List.find?]
  | cons hd tl => simp [toMDX, getAttr, List.find?, List.isEmpty]

/-- Claim C8: For every matching code node (language equal to the
target, non-empty body), the rewritten node's `chart` attribute is
the original body with exactly leading and trailing whitespace
removed (the body decomposes as whitespace ++ chart ++ whitespace),
and the node carries a `config` attribute — the JSON-encoded bag —
iff the bag parsed from the node's meta is non-empty. -/
theorem rewrite_roundtrip (lang : String) (tree : List MdastNode) (i : Nat)
    (m : Option String) (v : String)
    (hnode : tree[i]? = some (.code (some lang) m v)) (hv : v ≠ "") :
    (remarkMdxMermaid lang tree)[i]? =
      some (toMDX v (parseCodeBlockAttributes (m.getD "")).1) ∧
    getAttr (toMDX v (parseCodeBlockAttributes (m.getD "")).1) "chart" =
      some (jsTrim v) ∧
    (∃ pre post, (∀ c ∈ pre, jsWs c = true) ∧ (∀ c ∈ post, jsWs c = true) ∧
      v.data = pre ++ (jsTrim v).data ++ post) ∧
    ((getAttr (toMDX v (parseCodeBlockAttributes (m.getD "")).1) "config").isSome ↔
      (parseCodeBlockAttributes (m.getD "")).1 ≠ []) := by
  have hvisit : visitCode lang (.code (some lang) m v) =
      toMDX v (parseCodeBlockAttributes (m.getD "")).1 := by
    simp [visitCode, hv]
  refine ⟨?_, getAttr_toMDX_chart v _, jsTrim_decomp v, getAttr_toMDX_config v _⟩
  rw [remarkMdxMermaid, List.getElem?_map, hnode, Option.map_some', hvisit]

/-- Witness for C8: a mermaid block with surrounding whitespace in
its body and one meta attribute. -/
theorem rewrite_roundtrip_witness :
    (remarkMdxMermaid "mermaid"
        [.code (some "mermaid") (some "theme=\"dark\"") "  graph TD\n  A --> B \n"])[0]? =
      some (toMDX "  graph TD\n  A --> B \n"
        (parseCodeBlockAttributes ((some "theme=\"dark\"").getD "")).1) ∧
    getAttr (toMDX "  graph TD\n  A --> B \n"
        (parseCodeBlockAttributes ((some "theme=\"dark\"").getD "")).1) "chart" =
      some (jsTrim "  graph TD\n  A --> B \n") ∧
    (∃ pre post, (∀ c ∈ pre, jsWs c = true) ∧ (∀ c ∈ post, jsWs c = true) ∧
      "  graph TD\n  A --> B \n".data =
        pre ++ (jsTrim "  graph TD\n  A --> B \n").data ++ post) ∧
    ((getAttr (toMDX "  graph TD\n  A --> B \n"
        (parseCodeBlockAttributes ((some "theme=\"dark\"").getD "")).1) "config").isSome ↔
      (parseCodeBlockAttributes ((some "theme=\"dark\"").getD "")).1 ≠ []) :=
  rewrite_roundtrip "mermaid"
    [.code (some "mermaid") (some "theme=\"dark\"") "  graph TD\n  A --> B \n"]
    0 (some "theme=\"dark\"") "  graph TD\n  A --> B \n" rfl (by decide)

/-! ## C3: malformed quoting

The claim says an unterminated quote leaves the whole token in the
residual with no attribute entry.  In fact the regex's optional value
group simply matches empty when the closing quote is missing, so the
name is recorded as a value-less flag and only the `="...` remainder
stays in the residual. -/

/-- Claim C3, counterexample: On the meta string `b="x` (unterminated
quote) the parser does add an entry for `b` (as a flag with no
value), and the residual is `="x`, not the entire token. -/
theorem unterminated_quote_cex :
    bagGet (parseCodeBlockAttributes "b=\"x").1 "b" = some none ∧
    (parseCodeBlockAttributes "b=\"x").2 = "=\"x" ∧
    (parseCodeBlockAttributes "b=\"x").2 ≠ "b=\"x" :=
  ⟨rfl, rfl, by decide⟩

theorem takeWhile_append_stop (p : Char → Bool) (l r : List Char) (x : Char)
    (hl : ∀ c ∈ l, p c = true) (hx : p x = false) :
    (l ++ x :: r).takeWhile p = l ∧ (l ++ x :: r).dropWhile p = x :: r := by
  induction l with
  | nil => simp [List.takeWhile_cons, List.dropWhile_cons, hx]
  | cons a tl ih =>
    have ha : p a = true := hl a (by simp)
    have ih' := ih fun c hc => hl c (by simp [hc])
    simp [List.takeWhile_cons, List.dropWhile_cons, ha, ih'.1, ih'.2]

theorem splitAtChar_none (q : Char) (l : List Char) (h : ∀ c ∈ l, c ≠ q) :
    splitAtChar q l = none := by
  induction l with
  | nil => rfl
  | cons a tl ih =>
    have ha : a ≠ q := h a (by simp)
    rw [splitAtChar, if_neg ha, ih fun c hc => h c (by simp [hc])]
    rfl

/-- Once the boundary flag is off, a stretch of non-whitespace
characters can never produce a match: it all flows into the
residual. -/
theorem scanMeta_no_ws (fuel : Nat) (cs : List Char) (bag : AttrBag) (res : List Char)
    (h : ∀ c ∈ cs, jsWs c = false) :
    scanMeta fuel cs false bag res = (bag, res ++ cs) := by
  induction fuel generalizing cs res with
  | zero => rfl
  | succ n ih =>
    cases cs with
    | nil => simp [scanMeta]
    | cons c tl =>
      have hc : jsWs c = false := h c (by simp)
      rw [scanMeta]
      simp only [Bool.false_and, Bool.false_eq_true, if_false, hc]
      rw [ih tl (res ++ [c]) fun d hd => h d (by simp [hd])]
      simp

/-- Claim C3, amended: For a token `name="v` with an unterminated
double quote (`name` a non-empty word, `v` free of whitespace and of
`"`), the parser records `name` as a value-less flag attribute and
leaves exactly the `="v` remainder — without the name — in the
residual. -/
theorem unterminated_quote_flag (name v : String)
    (hne : name ≠ "")
    (hword : ∀ c ∈ name.data, isWordChar c = true)
    (hv : ∀ c ∈ v.data, jsWs c = false ∧ c ≠ '"') :
    parseCodeBlockAttributes (name ++ "=\"" ++ v) = ([(name, none)], "=\"" ++ v) := by
  have hdata : (name ++ "=\"" ++ v).data = name.data ++ '=' :: '"' :: v.data := by
    rw [String.data_append, String.data_append]
    simp
  obtain ⟨c, cs0, hnc⟩ : ∃ c cs0, name.data = c :: cs0 := by
    cases hd : name.data with
    | nil => exact absurd (String.ext hd) hne
    | cons c cs0 => exact ⟨c, cs0, rfl⟩
  have hrest : ∀ d ∈ '=' :: '"' :: v.data, jsWs d = false := by
    intro d hd
    rcases hd with _ | ⟨_, hd⟩
    · decide
    · rcases hd with _ | ⟨_, hd⟩
      · decide
      · exact (hv d hd).1
  have htk := takeWhile_append_stop isWordChar name.data ('"' :: v.data) '='
    hword (by decide)
  have hsplit : splitAtChar '"' v.data = none :=
    splitAtChar_none '"' v.data fun d hd => (hv d hd).2
  have hcw : isWordChar c = true := hword c (by rw [hnc]; exact List.mem_cons_self c cs0)
  have hback : c :: (cs0 ++ '=' :: '"' :: v.data) = name.data ++ '=' :: '"' :: v.data := by
    rw [hnc, List.cons_append]
  have hmk : String.mk name.data = name := rfl
  have hmain : scanMeta ((name ++ "=\"" ++ v).length + 1)
      ((name ++ "=\"" ++ v).data) true [] [] =
      ([(name, none)], '=' :: '"' :: v.data) := by
    have hlist : (name ++ "=\"" ++ v).data = c :: (cs0 ++ '=' :: '"' :: v.data) := by
      rw [hdata, hnc, List.cons_append]
    rw [hlist, scanMeta]
    simp only [hcw, Bool.and_self, if_true]
    rw [hback, htk.1, htk.2, hmk]
    rw [tryQuotedValue, hsplit]
    simp only [Option.map_none']
    rw [scanMeta_no_ws _ _ _ _ hrest]
    simp [bagSet]
  have hnows : ∀ d ∈ ('=' :: '"' :: v.data), jsWs d = false := hrest
  have htrim : jsTrim (String.mk ('=' :: '"' :: v.data)) =
      String.mk ('=' :: '"' :: v.data) := by
    have hd1 : ('=' :: '"' :: v.data).dropWhile jsWs = '=' :: '"' :: v.data := by
      rw [List.dropWhile_cons, show jsWs '=' = false from by rfl]
      simp
    have hd2 : ('=' :: '"' :: v.data).reverse.dropWhile jsWs =
        ('=' :: '"' :: v.data).reverse := by
      cases hrev : ('=' :: '"' :: v.data).reverse with
      | nil => rfl
      | cons a tl =>
        have ha : jsWs a = false := by
          refine hnows a ?_
          rw [← List.mem_reverse, hrev]
          simp
        rw [List.dropWhile_cons, ha]
        simp
    unfold jsTrim
    simp only [hd1, hd2, List.reverse_reverse]
  have hstr : String.mk ('=' :: '"' :: v.data) = "=\"" ++ v := by
    apply String.ext
    rw [String.data_append]
    rfl
  rw [hstr] at htrim
  unfold parseCodeBlockAttributes
  simp only [hmain, hstr, htrim]

/-- Witness for the amended C3: `b="x`. -/
theorem unterminated_quote_flag_witness :
    parseCodeBlockAttributes ("b" ++ "=\"" ++ "x") = ([("b", none)], "=\"" ++ "x") :=
  unterminated_quote_flag "b" "x" (by decide) (by decide) (by decide)

/-! ## C7: error handling of config resolution

The claim says resolution never raises.  It does raise in exactly one
family of cases: when the config string parses to JSON `null`, the
outer `parsed.config` property access throws a `TypeError` that no
`try` block covers.  Everywhere else the fallback behaviour claimed
does hold. -/

/-- Claim C7, counterexample: The input `"null"` parses as JSON, and
the resolver throws on it rather than returning a config. -/
theorem null_config_throws_cex :
    jsonParse "null" = some .null ∧
    buildMermaidConfig (some "null") (some "dark") = .error () ∧
    buildMermaidConfig (some "null") none = .error () :=
  ⟨rfl, rfl, rfl⟩

/-- Claim C7, amended: Config resolution with an absent config string,
or one that fails to parse as JSON, returns `{theme: override}` when
a (non-empty) override is given and the empty config otherwise; and
it never raises an exception unless the config string parses to JSON
`null`. -/
theorem config_resolution_fallback (s s' t : String) (ov : Option String)
    (ht : t ≠ "") (hfail : jsonParse s = none)
    (hnn : jsonParse s' ≠ some .null) :
    buildMermaidConfig none (some t) = .ok [("theme", .str t)] ∧
    buildMermaidConfig none none = .ok [] ∧
    buildMermaidConfig (some s) (some t) = .ok [("theme", .str t)] ∧
    buildMermaidConfig (some s) none = .ok [] ∧
    ∃ cfg, buildMermaidConfig (some s') ov = .ok cfg := by
  have hofb : themeFallback (some t) = [("theme", .str t)] := by
    simp [themeFallback, strOptTruthy, ht]
  refine ⟨by simp [buildMermaidConfig, strOptTruthy, hofb],
    by simp [buildMermaidConfig, strOptTruthy, themeFallback],
    ?_, ?_, ?_⟩
  · by_cases hs : s = ""
    · subst hs; simp [buildMermaidConfig, strOptTruthy, hofb]
    · simp only [buildMermaidConfig, strOptTruthy, hs, not_false_iff, decide_not,
        Option.getD_some]
      rw [if_neg (by simp [hs]), hfail]
      rw [hofb]
  · by_cases hs : s = ""
    · subst hs; simp [buildMermaidConfig, strOptTruthy, themeFallback]
    · simp only [buildMermaidConfig, strOptTruthy, hs, Option.getD_some]
      rw [if_neg (by simp [hs]), hfail]
      simp [themeFallback, strOptTruthy]
  · by_cases hs : s' = ""
    · subst hs
      refine ⟨themeFallback ov, ?_⟩
      simp [buildMermaidConfig, strOptTruthy]
    · simp only [buildMermaidConfig, strOptTruthy, Option.getD_some]
      rw [if_neg (by simp [hs])]
      split
      · exact ⟨_, rfl⟩
      · next heq => exact absurd heq hnn
      · split
        · split
          · exact ⟨_, rfl⟩
          · exact ⟨_, rfl⟩
        · exact ⟨_, rfl⟩

/-- Witness for the amended C7 at `s = "not json"`, `s' = "[1]"`,
override `"dark"`. -/
theorem config_resolution_fallback_witness :
    buildMermaidConfig none (some "dark") = .ok [("theme", .str "dark")] ∧
    buildMermaidConfig none none = .ok [] ∧
    buildMermaidConfig (some "not json") (some "dark") = .ok [("theme", .str "dark")] ∧
    buildMermaidConfig (some "not json") none = .ok [] ∧
    ∃ cfg, buildMermaidConfig (some "[1]") (some "dark") = .ok cfg :=
  config_resolution_fallback "not json" "[1]" "dark" (some "dark")
    (by decide) rfl (by intro h; exact Option.noConfusion h (fun h2 => JsVal.noConfusion h2))

/-! ## Structural lemmas on config resolution -/

theorem jsonParse_empty : jsonParse "" = none := rfl

/-- When the parse result is a flat object (no truthy `config`
field), resolution goes through `flatResolve`. -/
theorem buildMermaidConfig_flat (s : String) (o : List (String × JsVal))
    (ov : Option String) (hp : jsonParse s = some (.obj o))
    (hnc : (propGetD (.obj o) "config").truthy = false) :
    buildMermaidConfig (some s) ov = .ok (flatResolve (.obj o) ov) := by
  have hs : s ≠ "" := by
    intro h
    subst h
    rw [jsonParse_empty] at hp
    exact Option.noConfusion hp
  simp only [buildMermaidConfig, Option.getD_some]
  rw [if_neg (by simp [strOptTruthy, hs]), hp]
  simp only [hnc, Bool.false_eq_true, if_false]

/-- When the parse result has a truthy string `config` field that
itself parses, resolution returns the spread of the nested value with
the outer `theme`, then the override, overlaid. -/
theorem buildMermaidConfig_nested (s c : String) (o : List (String × JsVal))
    (n : JsVal) (ov : Option String)
    (hp : jsonParse s = some (.obj o))
    (hc : objGet o "config" = some (.str c))
    (hct : c ≠ "")
    (hn : jsonParse c = some n) :
    buildMermaidConfig (some s) ov = .ok (
      let result := spreadFields n
      let result :=
        if (propGetD (.obj o) "theme").truthy then
          objSet result "theme" (propGetD (.obj o) "theme")
        else result
      if strOptTruthy ov then objSet result "theme" (.str (ov.getD "")) else result) := by
  have hs : s ≠ "" := by
    intro h
    subst h
    rw [jsonParse_empty] at hp
    exact Option.noConfusion hp
  have hpc : propGetD (.obj o) "config" = .str c := by
    simp [propGetD, propGet, hc]
  have hcf : (propGetD (.obj o) "config").truthy = true := by
    rw [hpc]; simp [JsVal.truthy, hct]
  have hpv : jsonParseOfVal (propGetD (.obj o) "config") = some n := by
    rw [hpc, jsonParseOfVal, hn]
  simp only [buildMermaidConfig, Option.getD_some]
  rw [if_neg (by simp [strOptTruthy, hs]), hp]
  simp only [hcf, if_true, hpv]

theorem objGet_themeFieldOf_theme (p : JsVal) (ov : Option String) :
    objGet (themeFieldOf p ov) "theme" =
      if (propGetD p "theme").truthy then some (propGetD p "theme")
      else if strOptTruthy ov then some (.str (ov.getD "")) else none := by
  unfold themeFieldOf
  split
  · simp [objSet, objGet]
  · split
    · simp [objSet, objGet]
    · simp [objGet]

theorem objGet_themeFieldOf_ne (p : JsVal) (ov : Option String) (k : String)
    (hk : k ≠ "theme") : objGet (themeFieldOf p ov) k = none := by
  unfold themeFieldOf
  have h : ("theme" : String) ≠ k := fun he => hk he.symm
  split
  · simp [objSet, objGet, h]
  · split
    · simp [objSet, objGet, h]
    · simp [objGet]

theorem objGet_flatResolve_theme (p : JsVal) (ov : Option String) :
    objGet (flatResolve p ov) "theme" = objGet (themeFieldOf p ov) "theme" := by
  unfold flatResolve
  have h1 : ("packet" : String) ≠ "theme" := by decide
  have h2 : ("flowchart" : String) ≠ "theme" := by decide
  have h3 : ("sequence" : String) ≠ "theme" := by decide
  split <;> split <;> split <;>
    simp [objGet_objSet_ne _ _ _ _ h1, objGet_objSet_ne _ _ _ _ h2,
      objGet_objSet_ne _ _ _ _ h3]

theorem objGet_flatResolve_packet (p : JsVal) (ov : Option String) :
    objGet (flatResolve p ov) "packet" =
      if (packetOptionsOf p).isEmpty then none
      else some (.obj (packetOptionsOf p)) := by
  unfold flatResolve
  have h2 : ("flowchart" : String) ≠ "packet" := by decide
  have h3 : ("sequence" : String) ≠ "packet" := by decide
  have ht := objGet_themeFieldOf_ne p ov "packet" (by decide)
  split <;> split <;> split <;>
    simp [objGet_objSet_ne _ _ _ _ h2, objGet_objSet_ne _ _ _ _ h3,
      objGet_objSet_self, ht]

theorem objGet_flatResolve_flowchart (p : JsVal) (ov : Option String) :
    objGet (flatResolve p ov) "flowchart" =
      if (flowchartOptionsOf p).isEmpty then none
      else some (.obj (flowchartOptionsOf p)) := by
  unfold flatResolve
  have h1 : ("packet" : String) ≠ "flowchart" := by decide
  have h3 : ("sequence" : String) ≠ "flowchart" := by decide
  have ht := objGet_themeFieldOf_ne p ov "flowchart" (by decide)
  split <;> split <;> split <;>
    simp [objGet_objSet_ne _ _ _ _ h1, objGet_objSet_ne _ _ _ _ h3,
      objGet_objSet_self, ht]

theorem objGet_flatResolve_sequence (p : JsVal) (ov : Option String) :
    objGet (flatResolve p ov) "sequence" =
      if (sequenceOptionsOf p).isEmpty then none
      else some (.obj (sequenceOptionsOf p)) := by
  unfold flatResolve
  have h1 : ("packet" : String) ≠ "sequence" := by decide
  have h2 : ("flowchart" : String) ≠ "sequence" := by decide
  have ht := objGet_themeFieldOf_ne p ov "sequence" (by decide)
  split <;> split <;> split <;>
    simp [objGet_objSet_ne _ _ _ _ h1, objGet_objSet_ne _ _ _ _ h2,
      objGet_objSet_self, ht]

theorem packetOptionsOf_mem_source (p : JsVal)
    (h : (packetOptionsOf p).isEmpty = false) :
    (propGetD p "rowHeight").truthy = true ∨ (propGetD p "bitsPerRow").truthy = true ∨
      (propGetD p "showBits").truthy = true := by
  by_cases h1 : (propGetD p "rowHeight").truthy = true
  · exact Or.inl h1
  by_cases h2 : (propGetD p "bitsPerRow").truthy = true
  · exact Or.inr (Or.inl h2)
  by_cases h3 : (propGetD p "showBits").truthy = true
  · exact Or.inr (Or.inr h3)
  exfalso
  unfold packetOptionsOf at h
  simp [h1, h2, h3] at h

theorem flowchartOptionsOf_mem_source (p : JsVal)
    (h : (flowchartOptionsOf p).isEmpty = false) :
    (propGetD p "nodeSpacing").truthy = true ∨ (propGetD p "rankSpacing").truthy = true ∨
      (propGetD p "curve").truthy = true := by
  by_cases h1 : (propGetD p "nodeSpacing").truthy = true
  · exact Or.inl h1
  by_cases h2 : (propGetD p "rankSpacing").truthy = true
  · exact Or.inr (Or.inl h2)
  by_cases h3 : (propGetD p "curve").truthy = true
  · exact Or.inr (Or.inr h3)
  exfalso
  unfold flowchartOptionsOf at h
  simp [h1, h2, h3] at h

theorem sequenceOptionsOf_mem_source (p : JsVal)
    (h : (sequenceOptionsOf p).isEmpty = false) :
    (propGetD p "mirrorActors").truthy = true ∨
      (propGetD p "messageAlign").truthy = true := by
  by_cases h1 : (propGetD p "mirrorActors").truthy = true
  · exact Or.inl h1
  by_cases h2 : (propGetD p "messageAlign").truthy = true
  · exact Or.inr h2
  exfalso
  unfold sequenceOptionsOf at h
  simp [h1, h2] at h

theorem packetOptionsOf_rowHeight (p : JsVal)
    (h : (propGetD p "rowHeight").truthy = true) :
    objGet (packetOptionsOf p) "rowHeight" =
      some (jsParseIntVal (propGetD p "rowHeight")) := by
  have hb : ("bitsPerRow" : String) ≠ "rowHeight" := by decide
  have hs : ("showBits" : String) ≠ "rowHeight" := by decide
  by_cases h2 : (propGetD p "bitsPerRow").truthy = true <;>
  by_cases h3 : (propGetD p "showBits").truthy = true <;>
    simp [packetOptionsOf, h, h2, h3, objGet_objSet_ne _ _ _ _ hb,
      objGet_objSet_ne _ _ _ _ hs, objGet_objSet_self]

theorem packetOptionsOf_showBits (p : JsVal)
    (h : (propGetD p "showBits").truthy = true) :
    objGet (packetOptionsOf p) "showBits" =
      some (.bool (strictEqTrue (propGetD p "showBits"))) := by
  by_cases h1 : (propGetD p "rowHeight").truthy = true <;>
  by_cases h2 : (propGetD p "bitsPerRow").truthy = true <;>
    simp [packetOptionsOf, h, h1, h2, objGet_objSet_self]

theorem objGet_flatResolve_other (p : JsVal) (ov : Option String) (k : String)
    (h1 : k ≠ "theme") (h2 : k ≠ "packet") (h3 : k ≠ "flowchart")
    (h4 : k ≠ "sequence") : objGet (flatResolve p ov) k = none := by
  unfold flatResolve
  have n2 : ("packet" : String) ≠ k := fun he => h2 he.symm
  have n3 : ("flowchart" : String) ≠ k := fun he => h3 he.symm
  have n4 : ("sequence" : String) ≠ k := fun he => h4 he.symm
  have ht := objGet_themeFieldOf_ne p ov k h1
  split <;> split <;> split <;>
    simp [objGet_objSet_ne _ _ _ _ n2, objGet_objSet_ne _ _ _ _ n3,
      objGet_objSet_ne _ _ _ _ n4, ht]

/-! ## C1: theme precedence -/

/-- Claim C1, counterexample: With the per-call override `forest` (the
component's `theme` prop, which resolves to `forest` regardless of the
ambient mode) and the serialized config `\x7b"theme":"dark"\x7d`, the
resulting config's theme is `dark`, not the override: the flat `theme`
attribute wins over the explicit per-call override. -/
theorem theme_precedence_cex :
    resolvedThemeOf (some "forest") (some "dark") = "forest" ∧
    buildMermaidConfig (some "\x7b\"theme\":\"dark\"\x7d")
      (some (resolvedThemeOf (some "forest") (some "dark"))) =
      .ok [("theme", .str "dark")] ∧
    ("dark" : String) ≠ "forest" :=
  ⟨rfl, rfl, by decide⟩

/-- Claim C1, amended: On the flat path (the serialized config is an
object with no truthy `config` field), the theme precedence is:
flat `theme` attribute first, then the explicit per-call override,
then the ambient color mode.  Whenever a non-empty flat `theme`
attribute is present, the resulting theme equals it regardless of the
override; when no truthy flat `theme` attribute exists, the theme is
the resolved override-or-ambient value, and the override, when given,
beats the ambient mode. -/
theorem theme_precedence_amended (s : String) (o : List (String × JsVal))
    (ov sys : Option String) (t u : String)
    (hp : jsonParse s = some (.obj o))
    (hnc : (propGetD (.obj o) "config").truthy = false)
    (hov : ov ≠ some "") :
    (propGetD (.obj o) "theme" = .str t → t ≠ "" →
      ∃ cfg, buildMermaidConfig (some s) (some (resolvedThemeOf ov sys)) = .ok cfg ∧
        objGet cfg "theme" = some (.str t)) ∧
    ((propGetD (.obj o) "theme").truthy = false →
      ∃ cfg, buildMermaidConfig (some s) (some (resolvedThemeOf ov sys)) = .ok cfg ∧
        objGet cfg "theme" = some (.str (resolvedThemeOf ov sys))) ∧
    (ov = some u → resolvedThemeOf ov sys = u) := by
  have hrt : resolvedThemeOf ov sys ≠ "" := by
    cases ov with
    | some w =>
      intro h
      exact hov (by rw [show resolvedThemeOf (some w) sys = w from rfl] at h; rw [h])
    | none =>
      show (if sys = some "dark" then "dark" else "default") ≠ ""
      split <;> decide
  have hb := buildMermaidConfig_flat s o (some (resolvedThemeOf ov sys)) hp hnc
  refine ⟨?_, ?_, ?_⟩
  · intro hattr ht
    refine ⟨_, hb, ?_⟩
    rw [objGet_flatResolve_theme, objGet_themeFieldOf_theme, hattr]
    simp [JsVal.truthy, ht]
  · intro hfalsy
    refine ⟨_, hb, ?_⟩
    rw [objGet_flatResolve_theme, objGet_themeFieldOf_theme]
    simp [hfalsy, strOptTruthy, hrt]
  · intro hu
    subst hu
    rfl

/-- Witness for the amended C1: config `\x7b"theme":"dark"\x7d` with
override `forest` (flat theme wins), and config `\x7b"rowHeight":"40"\x7d`
with the same override (override used). -/
theorem theme_precedence_amended_witness :
    (∃ cfg, buildMermaidConfig (some "\x7b\"theme\":\"dark\"\x7d")
        (some (resolvedThemeOf (some "forest") none)) = .ok cfg ∧
      objGet cfg "theme" = some (.str "dark")) ∧
    (∃ cfg, buildMermaidConfig (some "\x7b\"rowHeight\":\"40\"\x7d")
        (some (resolvedThemeOf (some "forest") none)) = .ok cfg ∧
      objGet cfg "theme" = some (.str (resolvedThemeOf (some "forest") none))) ∧
    resolvedThemeOf (some "forest") none = "forest" := by
  have h1 := theme_precedence_amended "\x7b\"theme\":\"dark\"\x7d"
    [("theme", .str "dark")] (some "forest") none "dark" "forest" rfl rfl (by decide)
  have h2 := theme_precedence_amended "\x7b\"rowHeight\":\"40\"\x7d"
    [("rowHeight", .str "40")] (some "forest") none "dark" "forest" rfl rfl (by decide)
  exact ⟨h1.1 rfl (by decide), h2.2.1 rfl, h2.2.2 rfl⟩

/-! ## C5: flat attribute resolution -/

/-- Claim C5: Resolving `\x7b"theme":"dark","rowHeight":"40"\x7d` with no
override yields exactly `\x7btheme:"dark", packet:\x7browHeight:40\x7d\x7d`;
and in general, for a flat attribute bag (an object with no `config`
key), each family group is attached only if one of its recognized
fields is present, every key of the result is one of
`theme`/`packet`/`flowchart`/`sequence` (unrecognized flat keys are
dropped), integer fields are parsed base-10 by `parseInt`, and
`showBits` becomes `true` iff its string equals `"true"`. -/
theorem flat_config_resolution (s : String) (o : List (String × JsVal))
    (ov : Option String) (k r b : String)
    (hp : jsonParse s = some (.obj o))
    (hnc : objGet o "config" = none) :
    buildMermaidConfig (some "\x7b\"theme\":\"dark\",\"rowHeight\":\"40\"\x7d") none =
      .ok [("theme", .str "dark"), ("packet", .obj [("rowHeight", .num 40 0)])] ∧
    ∃ cfg, buildMermaidConfig (some s) ov = .ok cfg ∧
      ((objGet cfg "packet").isSome →
        (objGet o "rowHeight").isSome ∨ (objGet o "bitsPerRow").isSome ∨
          (objGet o "showBits").isSome) ∧
      ((objGet cfg "flowchart").isSome →
        (objGet o "nodeSpacing").isSome ∨ (objGet o "rankSpacing").isSome ∨
          (objGet o "curve").isSome) ∧
      ((objGet cfg "sequence").isSome →
        (objGet o "mirrorActors").isSome ∨ (objGet o "messageAlign").isSome) ∧
      ((objGet cfg k).isSome →
        k = "theme" ∨ k = "packet" ∨ k = "flowchart" ∨ k = "sequence") ∧
      (objGet o "rowHeight" = some (.str r) → r ≠ "" →
        ∃ po, objGet cfg "packet" = some (.obj po) ∧
          objGet po "rowHeight" = some (jsParseIntVal (.str r))) ∧
      (objGet o "showBits" = some (.str b) → b ≠ "" →
        ∃ po, objGet cfg "packet" = some (.obj po) ∧
          objGet po "showBits" = some (.bool (b == "true"))) := by
  have hncT : (propGetD (.obj o) "config").truthy = false := by
    simp [propGetD, propGet, hnc, JsVal.truthy]
  have hb := buildMermaidConfig_flat s o ov hp hncT
  refine ⟨rfl, _, hb, ?_, ?_, ?_, ?_, ?_, ?_⟩
  · intro hps
    rw [objGet_flatResolve_packet] at hps
    by_cases he : (packetOptionsOf (.obj o)).isEmpty = true
    · rw [if_pos he] at hps; simp at hps
    · rcases packetOptionsOf_mem_source (.obj o)
        (Bool.eq_false_iff.mpr (fun h => he h)) with h | h | h
      · exact Or.inl (truthy_propGetD_isSome o _ h)
      · exact Or.inr (Or.inl (truthy_propGetD_isSome o _ h))
      · exact Or.inr (Or.inr (truthy_propGetD_isSome o _ h))
  · intro hps
    rw [objGet_flatResolve_flowchart] at hps
    by_cases he : (flowchartOptionsOf (.obj o)).isEmpty = true
    · rw [if_pos he] at hps; simp at hps
    · rcases flowchartOptionsOf_mem_source (.obj o)
        (Bool.eq_false_iff.mpr (fun h => he h)) with h | h | h
      · exact Or.inl (truthy_propGetD_isSome o _ h)
      · exact Or.inr (Or.inl (truthy_propGetD_isSome o _ h))
      · exact Or.inr (Or.inr (truthy_propGetD_isSome o _ h))
  · intro hps
    rw [objGet_flatResolve_sequence] at hps
    by_cases he : (sequenceOptionsOf (.obj o)).isEmpty = true
    · rw [if_pos he] at hps; simp at hps
    · rcases sequenceOptionsOf_mem_source (.obj o)
        (Bool.eq_false_iff.mpr (fun h => he h)) with h | h
      · exact Or.inl (truthy_propGetD_isSome o _ h)
      · exact Or.inr (truthy_propGetD_isSome o _ h)
  · intro hks
    by_cases e1 : k = "theme"
    · exact Or.inl e1
    by_cases e2 : k = "packet"
    · exact Or.inr (Or.inl e2)
    by_cases e3 : k = "flowchart"
    · exact Or.inr (Or.inr (Or.inl e3))
    by_cases e4 : k = "sequence"
    · exact Or.inr (Or.inr (Or.inr e4))
    rw [objGet_flatResolve_other _ _ _ e1 e2 e3 e4] at hks
    simp at hks
  · intro hr hrne
    have hpr : propGetD (.obj o) "rowHeight" = .str r := by
      simp [propGetD, propGet, hr]
    have htr : (propGetD (.obj o) "rowHeight").truthy = true := by
      rw [hpr]; simp [JsVal.truthy, hrne]
    have hrow := packetOptionsOf_rowHeight (.obj o) htr
    have hne2 : (packetOptionsOf (.obj o)).isEmpty = false := by
      cases hemp : packetOptionsOf (.obj o) with
      | nil => rw [hemp] at hrow; simp [objGet] at hrow
      | cons a l => rfl
    refine ⟨packetOptionsOf (.obj o), ?_, ?_⟩
    · rw [objGet_flatResolve_packet]; simp [hne2]
    · rw [hrow, hpr]
  · intro hbs hbne
    have hpb : propGetD (.obj o) "showBits" = .str b := by
      simp [propGetD, propGet, hbs]
    have htb : (propGetD (.obj o) "showBits").truthy = true := by
      rw [hpb]; simp [JsVal.truthy, hbne]
    have hsb := packetOptionsOf_showBits (.obj o) htb
    have hne2 : (packetOptionsOf (.obj o)).isEmpty = false := by
      cases hemp : packetOptionsOf (.obj o) with
      | nil => rw [hemp] at hsb; simp [objGet] at hsb
      | cons a l => rfl
    refine ⟨packetOptionsOf (.obj o), ?_, ?_⟩
    · rw [objGet_flatResolve_packet]; simp [hne2]
    · rw [hsb, hpb]
      rfl

/-- Witness for C5 on the bag
`\x7b"theme":"dark","rowHeight":"40","showBits":"false","junk":"1"\x7d`:
`rowHeight` is parsed to the integer 40, `showBits "false"` becomes
the boolean `false`, and the unrecognized key `junk` is dropped. -/
theorem flat_config_resolution_witness :
    (∃ cfg, buildMermaidConfig
        (some "\x7b\"theme\":\"dark\",\"rowHeight\":\"40\",\"showBits\":\"false\",\"junk\":\"1\"\x7d")
        none = .ok cfg ∧
      (∃ po, objGet cfg "packet" = some (.obj po) ∧
        objGet po "rowHeight" = some (jsParseIntVal (.str "40"))) ∧
      (∃ po, objGet cfg "packet" = some (.obj po) ∧
        objGet po "showBits" = some (.bool (("false" : String) == "true"))) ∧
      ¬ (objGet cfg "junk").isSome) := by
  obtain ⟨hex, cfg, hb, hpk, hfl, hsq, hkeys, hrow, hshow⟩ :=
    flat_config_resolution
      "\x7b\"theme\":\"dark\",\"rowHeight\":\"40\",\"showBits\":\"false\",\"junk\":\"1\"\x7d"
      [("theme", .str "dark"), ("rowHeight", .str "40"), ("showBits", .str "false"),
        ("junk", .str "1")]
      none "junk" "40" "false" rfl rfl
  refine ⟨cfg, hb, hrow rfl (by decide), hshow rfl (by decide), fun hj => ?_⟩
  rcases hkeys hj with h | h | h | h <;> exact absurd h (by decide)

/-! ## C6: nested config overlay -/

/-- Claim C6: Resolving `\x7b"config":"\x7b\"theme\":\"forest\"\x7d"\x7d` with
override `"dark"` yields exactly `\x7btheme:"dark"\x7d`; and in general,
when the parsed config has a (non-empty, string) `config` field that
itself parses as JSON, the resolver returns that nested object with
the outer top-level `theme` shallowly overwritten onto it and the
override overwritten on top: with a non-empty override the resulting
theme is the override; every key other than `theme` is exactly as in
the (spread of the) nested value; with no override, a truthy outer
`theme` wins, and with neither the nested value's own entries are
untouched. -/
theorem nested_config_resolution (s c : String) (o : List (String × JsVal))
    (n : JsVal) (ov : Option String) (k t : String)
    (hp : jsonParse s = some (.obj o))
    (hc : objGet o "config" = some (.str c))
    (hct : c ≠ "")
    (hn : jsonParse c = some n) :
    buildMermaidConfig (some "\x7b\"config\":\"\x7b\\\"theme\\\":\\\"forest\\\"\x7d\"\x7d")
      (some "dark") = .ok [("theme", .str "dark")] ∧
    ∃ cfg, buildMermaidConfig (some s) ov = .ok cfg ∧
      (∀ u, ov = some u → u ≠ "" → objGet cfg "theme" = some (.str u)) ∧
      (k ≠ "theme" → objGet cfg k = objGet (spreadFields n) k) ∧
      (ov = none → (propGetD (.obj o) "theme").truthy = false →
        objGet cfg "theme" = objGet (spreadFields n) "theme") ∧
      (ov = none → propGetD (.obj o) "theme" = .str t → t ≠ "" →
        objGet cfg "theme" = some (.str t)) := by
  have hbn := buildMermaidConfig_nested s c o n ov hp hc hct hn
  refine ⟨rfl, _, hbn, ?_, ?_, ?_, ?_⟩
  · intro u hu hune
    subst hu
    simp [strOptTruthy, hune, objGet_objSet_self]
  · intro hkt
    have hk' : ("theme" : String) ≠ k := fun he => hkt he.symm
    by_cases c1 : strOptTruthy ov = true <;>
    by_cases c2 : (propGetD (.obj o) "theme").truthy = true <;>
      simp [c1, c2, objGet_objSet_ne _ _ _ _ hk']
  · intro h1 h2
    subst h1
    simp [strOptTruthy, h2]
  · intro h1 hattr ht
    subst h1
    simp [strOptTruthy, hattr, JsVal.truthy, ht, objGet_objSet_self]

/-- Witness for C6: outer config
`\x7b"config":"\x7b\"a\":1\x7d","theme":"neutral"\x7d` with override `"dark"`:
the theme is the override, and the nested key `a` survives the
overlay unchanged. -/
theorem nested_config_resolution_witness :
    (∃ cfg, buildMermaidConfig
        (some "\x7b\"config\":\"\x7b\\\"a\\\":1\x7d\",\"theme\":\"neutral\"\x7d")
        (some "dark") = .ok cfg ∧
      objGet cfg "theme" = some (.str "dark") ∧
      objGet cfg "a" = objGet (spreadFields (.obj [("a", .num 1 0)])) "a") := by
  obtain ⟨hex, cfg, hb, hov, hother, h3, h4⟩ :=
    nested_config_resolution
      "\x7b\"config\":\"\x7b\\\"a\\\":1\x7d\",\"theme\":\"neutral\"\x7d"
      "\x7b\"a\":1\x7d"
      [("config", .str "\x7b\"a\":1\x7d"), ("theme", .str "neutral")]
      (.obj [("a", .num 1 0)]) (some "dark") "a" "neutral"
      rfl rfl (by decide) rfl
  exact ⟨cfg, hb, hov "dark" rfl (by decide), hother (by decide)⟩

end FumadocsMermaid
